import Mathlib

/-!
Verification of the ceilometer telemetry agent against its specification.

The repository code (Python) is shallowly embedded below:
* `ceilometer/dispatcher/gnocchi.py` – the Gnocchi metrics dispatcher
  (`record_metering_data`, `_process_resource`, `_check_resource_cache`,
  `_ensure_resource_and_metric`, `_is_gnocchi_activity`, resource
  definitions).
* `ceilometer/compute/discovery.py` – incremental instance discovery.
* `ceilometer/agent/manager.py` – the per-cycle memoized keystone client.
* `ceilometer/compute/pollsters/memory.py` and
  `ceilometer/compute/pollsters/instance.py` – pollsters with per-resource
  failure isolation.

External collaborators (the gnocchi HTTP client, the cache, the nova and
keystone clients, inspectors) are modelled as oracles: response streams
indexed by how many calls of each kind have been made so far.  Backend
outcome spaces follow the interface section of the specification, since the
client modules themselves are not part of the sources.  Python dictionaries
are modelled as insertion-ordered association lists, and Python `hash` of a
`frozenset` of items as an order-independent (summed) content hash.
-/

deriving instance DecidableEq for Except

namespace Ceilometer

/-- Python dict lookup `m.get(k)`: first binding of the key, if any. -/
def dictGet {α : Type} (m : List (String × α)) (k : String) : Option α :=
  (m.find? (fun p => p.1 == k)).map (fun p => p.2)

/-- Python dict assignment `m[k] = v`: replace an existing binding in place
(keeping its position) or append a fresh binding at the end, matching the
insertion-order semantics of Python dictionaries. -/
def dictSet {α : Type} (m : List (String × α)) (k : String) (v : α) :
    List (String × α) :=
  if m.any (fun p => p.1 == k) then
    m.map (fun p => if p.1 == k then (k, v) else p)
  else
    m ++ [(k, v)]

/-- Python `del m[k]` / `m.pop(k, None)`: drop the bindings of a key. -/
def dictRemove {α : Type} (m : List (String × α)) (k : String) :
    List (String × α) :=
  m.filter (fun p => !(p.1 == k))

/-- Python `m.update(m2)`: fold the bindings of `m2` into `m`. -/
def dictUpdate {α : Type} (m m2 : List (String × α)) : List (String × α) :=
  m2.foldl (fun acc p => dictSet acc p.1 p.2) m

/-- One `[...]` character-class body: a character matches either a literal
member or an `a-b` range. -/
def classMatch (c : Char) : List Char → Bool
  | a :: '-' :: b :: rest => (a ≤ c && c ≤ b) || classMatch c rest
  | a :: rest => (c == a) || classMatch c rest
  | [] => false

/-- Split a character-class body at its closing bracket, returning the class
body and the remaining pattern. -/
def splitClass : List Char → Option (List Char × List Char)
  | [] => none
  | ']' :: rest => some ([], rest)
  | c :: rest => (splitClass rest).map (fun p => (c :: p.1, p.2))

/-- Modelled from the spec: glob-pattern matching (the spec maps meter
names with "glob patterns"; the Python `fnmatch` module is outside the
sources).  `*` matches any sequence, `?` any single character, `[...]` a
character class with optional leading `!` negation and `a-b` ranges; an
unterminated class matches a literal bracket, as in Python.  The structural
fuel argument decreases by one per step while every step consumes at least
one pattern or string character, so `globMatch` below always supplies
enough fuel. -/
def globMatchF : Nat → List Char → List Char → Bool
  | 0, _, _ => false
  | _ + 1, [], [] => true
  | _ + 1, [], _ :: _ => false
  | f + 1, '*' :: ps, [] => globMatchF f ps []
  | f + 1, '*' :: ps, c :: cs =>
    globMatchF f ps (c :: cs) || globMatchF f ('*' :: ps) cs
  | _ + 1, '?' :: _, [] => false
  | f + 1, '?' :: ps, _ :: cs => globMatchF f ps cs
  | _ + 1, '[' :: _, [] => false
  | f + 1, '[' :: ps, c :: cs =>
    let body := match ps with
      | '!' :: rest => (true, rest)
      | _ => (false, ps)
    let split := match body.2 with
      | ']' :: rest => (splitClass rest).map (fun p => (']' :: p.1, p.2))
      | _ => splitClass body.2
    (match split with
     | some (cls, rest) => (body.1 != classMatch c cls) && globMatchF f rest cs
     | none => (c == '[') && globMatchF f ps cs)
  | _ + 1, _ :: _, [] => false
  | f + 1, p :: ps, c :: cs => (p == c) && globMatchF f ps cs

/-- Glob matching with the fuel fixed at pattern length plus string length
plus one, which the step-counting argument above shows is sufficient. -/
def globMatch (p s : List Char) : Bool :=
  globMatchF (p.length + s.length + 1) p s

/-- `fnmatch.fnmatch(name, pattern)` on a case-sensitive platform. -/
def fnmatch (name pattern : String) : Bool :=
  globMatch pattern.data name.data

/-- A deterministic content hash of a string (stand-in for Python string
hashing; the claims only compare hashes for equality). -/
def strHash (s : String) : Nat :=
  s.data.foldl (fun h c => h * 31 + c.toNat) 7

/-- Hash of one dictionary item. -/
def itemHash (p : String × String) : Nat :=
  strHash p.1 * 1000003 + strHash p.2

/-- Python `hash(frozenset(d.items()))`: an order-independent combination
(here, the sum) of the item hashes. -/
def frozensetHash (l : List (String × String)) : Nat :=
  (l.map itemHash).sum

/-- A metering sample as consumed by the dispatcher (the dictionary fields
`record_metering_data` and `_is_gnocchi_activity` actually read). -/
structure DSample where
  resource_id : String
  counter_name : String
  user_id : String
  project_id : String
  timestamp : Nat
  counter_volume : Rat
deriving DecidableEq

/-- One measurement posted to the backend: `{'timestamp': ..., 'value': ...}`. -/
structure Measure where
  timestamp : Nat
  value : Rat
deriving DecidableEq

/-- A loaded resource definition (`ResourcesDefinition`): its mandatory
`resource_type` and `metrics` pattern list, the optional `archive_policy`,
the `ignore` flag and the attribute extractors (`declarative.Definition`
parsing is outside the sources, so each extractor is an opaque function from
a sample to an optional value). -/
structure RDef where
  resource_type : String
  metrics : List String
  archive_policy : Option String
  ignore : Bool
  attributes : List (String × (DSample → Option String))

/-- `ResourcesDefinition.match`: some declared pattern glob-matches the
metric name. -/
def rdMatch (rd : RDef) (metric_name : String) : Bool :=
  rd.metrics.any (fun t => fnmatch metric_name t)

/-- `ResourcesDefinition.attributes`: evaluate each extractor against the
sample, keeping only those that yield a value. -/
def rdAttributes (rd : RDef) (s : DSample) : List (String × String) :=
  rd.attributes.foldl
    (fun attrs p =>
      match p.2 s with
      | some v => dictSet attrs p.1 v
      | none => attrs)
    []

/-- `ResourcesDefinition.metrics`: a map from each declared pattern to its
archive-policy reference, falling back to the dispatcher-wide default, or to
an empty policy (`none`) when neither is set. -/
def rdMetrics (default_archive_policy : Option String) (rd : RDef) :
    List (String × Option String) :=
  rd.metrics.map (fun t => (t, rd.archive_policy.orElse
    (fun _ => default_archive_policy)))

/-- `GnocchiDispatcher._get_resource_definition`: first matching definition. -/
def get_resource_definition (defs : List RDef) (metric_name : String) :
    Option RDef :=
  defs.find? (fun rd => rdMatch rd metric_name)

/-- `GnocchiDispatcher._is_swift_account_sample`: the sample matches some
definition of resource type `swift_account`. -/
def is_swift_account_sample (defs : List RDef) (s : DSample) : Bool :=
  defs.any (fun rd => rd.resource_type == "swift_account"
    && rdMatch rd s.counter_name)

/-- `cache_key_mangler`: an opaque deterministic key derived from the
resource id (`uuid.uuid5` is modelled as an injective tag). -/
def cache_key_mangler (key : String) : String :=
  String.append "uuid5:" key

/-- The resource dictionary built per meter group: its plain attributes
(`id`, `user_id`, `project_id`, later merged with the accumulated extras)
and its `metrics` map, kept as a separate field. -/
structure GResource where
  attrs : List (String × String)
  metrics : List (String × Option String)
deriving DecidableEq

/-- Backend response to `post_measure` (spec interface:
`ok | NoSuchMetric | OtherError`). -/
inductive PostR
  | ok
  | noSuchMetric
  | otherError
deriving DecidableEq

/-- Backend response to `create_resource` (spec interface:
`ok | ResourceAlreadyExists`). -/
inductive CreateResR
  | ok
  | alreadyExists
deriving DecidableEq

/-- Backend response to `create_metric` (spec interface:
`ok | MetricAlreadyExists`). -/
inductive CreateMetR
  | ok
  | alreadyExists
deriving DecidableEq

/-- Backend response to `update_resource` (spec interface:
`ok | OtherError`). -/
inductive UpdateR
  | ok
  | otherError
deriving DecidableEq

/-- The dispatcher environment: oracle streams for the backend client and
the cache (indexed by how many calls of that kind have happened so far),
plus the dispatcher configuration and loaded resource definitions. -/
structure Env where
  post : Nat → PostR
  createRes : Nat → CreateResR
  createMet : Nat → CreateMetR
  update : Nat → UpdateR
  cacheGet : Nat → Option Nat
  cacheConfigured : Bool
  archive_policy : Option String
  resources_definition : List RDef
  filter_service_activity : Bool
  gnocchi_project_id : Except Unit String

/-- One observable side effect of the dispatch workflow. -/
inductive GCall
  | postMeasure (resource_type resource_id metric_name : String)
      (measures : List Measure)
  | createResource (resource_type : String) (resource : GResource)
  | createMetric (resource_type resource_id metric_name : String)
      (archive_policy : Option String)
  | updateResource (resource_type resource_id : String)
      (extras : List (String × String))
  | cacheSet (key : String) (value : Nat) (ttl : Nat)
deriving DecidableEq

/-- A log line emitted by the dispatcher. -/
inductive LogE
  | warnNotHandled (metric_name : String)
  | errorPostFail (resource_id metric_name : String)
  | debugCacheHit (resource_id : String)
  | debugRecheckHit (resource_id : String)
  | errorWorkflow
deriving DecidableEq

/-- The threaded dispatch state: per-operation call counters (indices into
the oracle streams), the recorded calls and the log. -/
structure St where
  nPost : Nat
  nCreateRes : Nat
  nCreateMet : Nat
  nUpdate : Nat
  nCacheGet : Nat
  calls : List GCall
  logs : List LogE
deriving DecidableEq

/-- The state at the start of a dispatch cycle. -/
def St.init : St := ⟨0, 0, 0, 0, 0, [], []⟩

/-- Append one log line. -/
def addLog (st : St) (e : LogE) : St := { st with logs := st.logs ++ [e] }

/-- Perform one `post_measure` backend call. -/
def doPostMeasure (env : Env) (rt rid mn : String) (ms : List Measure)
    (st : St) : PostR × St :=
  (env.post st.nPost,
    { st with nPost := st.nPost + 1,
              calls := st.calls ++ [GCall.postMeasure rt rid mn ms] })

/-- Perform one `create_resource` backend call. -/
def doCreateResource (env : Env) (rt : String) (r : GResource) (st : St) :
    CreateResR × St :=
  (env.createRes st.nCreateRes,
    { st with nCreateRes := st.nCreateRes + 1,
              calls := st.calls ++ [GCall.createResource rt r] })

/-- Perform one `create_metric` backend call. -/
def doCreateMetric (env : Env) (rt rid mn : String) (ap : Option String)
    (st : St) : CreateMetR × St :=
  (env.createMet st.nCreateMet,
    { st with nCreateMet := st.nCreateMet + 1,
              calls := st.calls ++ [GCall.createMetric rt rid mn ap] })

/-- Perform one `update_resource` backend call. -/
def doUpdateResource (env : Env) (rt rid : String)
    (extras : List (String × String)) (st : St) : UpdateR × St :=
  (env.update st.nUpdate,
    { st with nUpdate := st.nUpdate + 1,
              calls := st.calls ++ [GCall.updateResource rt rid extras] })

/-- Perform one `cache.get` read (the value comes from the oracle: other
processes may write the shared cache between reads). -/
def doCacheGet (env : Env) (st : St) : Option Nat × St :=
  (env.cacheGet st.nCacheGet, { st with nCacheGet := st.nCacheGet + 1 })

/-- Perform one `cache.set(key, value, ttl)` write. -/
def doCacheSet (key : String) (v ttl : Nat) (st : St) : St :=
  { st with calls := st.calls ++ [GCall.cacheSet key v ttl] }

/-- Uncaught workflow exceptions: the client `UnexpectedError` (caught by
the `log_and_ignore_unexpected_workflow_error` decorator) and the Python
`KeyError` escaping the archive-policy lookup
`resource['metrics'][metric_name]`. -/
inductive WErr
  | unexpected
  | keyError (key : String)
deriving DecidableEq

/-- `GnocchiDispatcher._check_resource_cache`: hash the resource data with
the `metrics` entry removed, read the cached hash for the key, and return
the fresh hash when the cached one differs (or `none` on a cache hit). -/
def check_resource_cache (env : Env) (_key : String)
    (resource_data : GResource) (st : St) : Option Nat × St :=
  let attribute_hash := frozensetHash (dictRemove resource_data.attrs "metrics")
  let (cached_hash, st) := doCacheGet env st
  if cached_hash = some attribute_hash then (none, st)
  else (some attribute_hash, st)

/-- `GnocchiDispatcher._ensure_resource_and_metric`: try to create the
resource (cache-guarded and double-checked when a cache is configured); on
`ResourceAlreadyExists` create just the metric instead, ignoring
`MetricAlreadyExists`; finally always attempt to create the metric once
more, again ignoring `MetricAlreadyExists`.  The archive policy is looked
up as `resource['metrics'][metric_name]`, whose failure is an uncaught
`KeyError`. -/
def ensure_resource_and_metric (env : Env) (resource_type : String)
    (resource : GResource) (metric_name : String) (st : St) :
    Except WErr Unit × St :=
  let rid := (dictGet resource.attrs "id").getD ""
  let finalCreate := fun (st : St) =>
    match dictGet resource.metrics metric_name with
    | none => (Except.error (WErr.keyError metric_name), st)
    | some archive_policy =>
      let (_, st) := doCreateMetric env resource_type rid metric_name
        archive_policy st
      (Except.ok (), st)
  let (raisedAlreadyExists, st) :=
    if env.cacheConfigured then
      let cache_key := cache_key_mangler rid
      let (attribute_hash, st) := check_resource_cache env cache_key resource st
      match attribute_hash with
      | some _ =>
        let (attribute_hash2, st) :=
          check_resource_cache env cache_key resource st
        match attribute_hash2 with
        | some h2 =>
          let (r, st) := doCreateResource env resource_type resource st
          match r with
          | CreateResR.alreadyExists => (true, st)
          | CreateResR.ok => (false, doCacheSet cache_key h2 3600 st)
        | none => (false, addLog st (LogE.debugRecheckHit rid))
      | none => (false, addLog st (LogE.debugRecheckHit rid))
    else
      let (r, st) := doCreateResource env resource_type resource st
      match r with
      | CreateResR.alreadyExists => (true, st)
      | CreateResR.ok => (false, st)
  if raisedAlreadyExists then
    match dictGet resource.metrics metric_name with
    | none => (Except.error (WErr.keyError metric_name), st)
    | some archive_policy =>
      let (_, st) := doCreateMetric env resource_type rid metric_name
        archive_policy st
      finalCreate st
  else
    finalCreate st

/-- The resource-attribute reconciliation tail of `_process_resource`
(lines executed when the accumulated extras mapping is non-empty): with a
cache, check the hash, re-check it under the reconciliation lock, and only
when still different call `update_resource` and then store the fresh hash
with a TTL of 3600 seconds; without a cache always call `update_resource`. -/
def reconcile_resource (env : Env) (resource_type resource_id : String)
    (resource : GResource) (resource_extra : List (String × String))
    (st : St) : Except WErr Unit × St :=
  let rid := (dictGet resource.attrs "id").getD ""
  if env.cacheConfigured then
    let cache_key := cache_key_mangler rid
    let (attribute_hash, st) := check_resource_cache env cache_key resource st
    match attribute_hash with
    | some _ =>
      let (attribute_hash2, st) :=
        check_resource_cache env cache_key resource st
      match attribute_hash2 with
      | some h2 =>
        let (u, st) := doUpdateResource env resource_type resource_id
          resource_extra st
        match u with
        | UpdateR.ok => (Except.ok (), doCacheSet cache_key h2 3600 st)
        | UpdateR.otherError => (Except.error WErr.unexpected, st)
      | none => (Except.ok (), addLog st (LogE.debugRecheckHit rid))
    | none => (Except.ok (), addLog st (LogE.debugCacheHit rid))
  else
    let (u, st) := doUpdateResource env resource_type resource_id
      resource_extra st
    match u with
    | UpdateR.ok => (Except.ok (), st)
    | UpdateR.otherError => (Except.error WErr.unexpected, st)

/-- One iteration of the meter-group loop in `_process_resource`: resolve
the first matching resource definition (warn and skip when none, skip when
`ignore`), accumulate the extracted attributes, build the measures and the
resource dictionary, post the measurements, and on `NoSuchMetric` repair
via `_ensure_resource_and_metric` and retry the post exactly once, logging
an error when the retry fails with `NoSuchMetric` again.  Returns the
(possibly raised) exception, the updated extras, the `resource_type` and
resource dictionary this iteration set (`none` when skipped), and the
state. -/
def process_metric_group (env : Env) (resource_id metric_name : String)
    (samples : List DSample) (resource_extra : List (String × String))
    (st : St) :
    Except WErr Unit × List (String × String) ×
      Option (String × GResource) × St :=
  match get_resource_definition env.resources_definition metric_name with
  | none =>
    (Except.ok (), resource_extra, none,
      addLog st (LogE.warnNotHandled metric_name))
  | some rd =>
    if rd.ignore then (Except.ok (), resource_extra, none, st)
    else
      match samples with
      | [] => (Except.ok (), resource_extra, none, st)
      | s0 :: _ =>
        let resource_type := rd.resource_type
        let resource_extra := samples.foldl
          (fun acc s => dictUpdate acc (rdAttributes rd s)) resource_extra
        let measures := samples.map
          (fun s => Measure.mk s.timestamp s.counter_volume)
        let resource : GResource :=
          { attrs := dictUpdate
              [("id", resource_id), ("user_id", s0.user_id),
               ("project_id", s0.project_id)] resource_extra,
            metrics := rdMetrics env.archive_policy rd }
        let (r1, st) := doPostMeasure env resource_type resource_id
          metric_name measures st
        match r1 with
        | PostR.ok =>
          (Except.ok (), resource_extra, some (resource_type, resource), st)
        | PostR.otherError =>
          (Except.error WErr.unexpected, resource_extra,
            some (resource_type, resource), st)
        | PostR.noSuchMetric =>
          let (e, st) := ensure_resource_and_metric env resource_type
            resource metric_name st
          match e with
          | Except.error w =>
            (Except.error w, resource_extra,
              some (resource_type, resource), st)
          | Except.ok _ =>
            let (r2, st) := doPostMeasure env resource_type resource_id
              metric_name measures st
            match r2 with
            | PostR.ok =>
              (Except.ok (), resource_extra,
                some (resource_type, resource), st)
            | PostR.otherError =>
              (Except.error WErr.unexpected, resource_extra,
                some (resource_type, resource), st)
            | PostR.noSuchMetric =>
              (Except.ok (), resource_extra,
                some (resource_type, resource),
                addLog st (LogE.errorPostFail resource_id metric_name))

/-- The meter-group loop of `_process_resource`: thread the extras, the
last set `(resource_type, resource)` pair and the state through the groups;
a raised exception exits the loop. -/
def process_groups (env : Env) (resource_id : String) :
    List (String × List DSample) → List (String × String) →
      Option (String × GResource) → St →
      Except WErr Unit × List (String × String) ×
        Option (String × GResource) × St
  | [], extra, last, st => (Except.ok (), extra, last, st)
  | (metric_name, samples) :: rest, extra, last, st =>
    match process_metric_group env resource_id metric_name samples extra st with
    | (Except.error w, extra2, last2, st2) =>
      (Except.error w, extra2, last2.orElse (fun _ => last), st2)
    | (Except.ok _, extra2, last2, st2) =>
      process_groups env resource_id rest extra2
        (last2.orElse (fun _ => last)) st2

/-- The body of `_process_resource` before the decorator: the meter-group
loop followed by attribute reconciliation when the accumulated extras
mapping is non-empty.  (The extras only accumulate in iterations that also
set `resource`, so the `none` fallback is unreachable.) -/
def process_resource_body (env : Env) (resource_id : String)
    (metric_grouped_samples : List (String × List DSample)) (st : St) :
    Except WErr Unit × St :=
  match process_groups env resource_id metric_grouped_samples [] none st with
  | (Except.error w, _, _, st) => (Except.error w, st)
  | (Except.ok _, resource_extra, last, st) =>
    if resource_extra.isEmpty then (Except.ok (), st)
    else
      match last with
      | some (resource_type, resource) =>
        reconcile_resource env resource_type resource_id resource
          resource_extra st
      | none => (Except.ok (), st)

/-- `_process_resource` with its `log_and_ignore_unexpected_workflow_error`
decorator: a client `UnexpectedError` is logged and swallowed, while any
other exception (the `KeyError` of the archive-policy lookup) propagates to
the caller. -/
def process_resource (env : Env) (resource_id : String)
    (metric_grouped_samples : List (String × List DSample)) (st : St) :
    Except String St :=
  match process_resource_body env resource_id metric_grouped_samples st with
  | (Except.ok _, st) => Except.ok st
  | (Except.error WErr.unexpected, st) => Except.ok (addLog st LogE.errorWorkflow)
  | (Except.error (WErr.keyError k), _) => Except.error k

/-- `GnocchiDispatcher.gnocchi_project_id` combined with
`_is_gnocchi_activity`: when the service-activity filter is enabled, the
lazily resolved gnocchi project id is consulted; a resolution failure
propagates.  A sample is gnocchi activity when its project is the gnocchi
project, or its resource id is that project id and it matches a
`swift_account` resource definition. -/
def is_gnocchi_activity (env : Env) (s : DSample) : Except Unit Bool :=
  if env.filter_service_activity then
    match env.gnocchi_project_id with
    | Except.error _ => Except.error ()
    | Except.ok pid =>
      Except.ok (s.project_id == pid
        || (s.resource_id == pid
            && is_swift_account_sample env.resources_definition s))
  else
    Except.ok false

/-- The filter `[s for s in data if not self._is_gnocchi_activity(s)]` at
the top of `record_metering_data`. -/
def filter_activity (env : Env) : List DSample → Except Unit (List DSample)
  | [] => Except.ok []
  | s :: rest =>
    match is_gnocchi_activity env s with
    | Except.error e => Except.error e
    | Except.ok b =>
      match filter_activity env rest with
      | Except.error e => Except.error e
      | Except.ok tail => Except.ok (if b then tail else s :: tail)

/-- Lexicographic code-point comparison of character lists (the order
Python uses for strings and hence for the sort-key tuples), written
structurally so that it computes. -/
def charListLt : List Char → List Char → Bool
  | [], [] => false
  | [], _ :: _ => true
  | _ :: _, [] => false
  | a :: as, b :: bs => decide (a < b) || (a == b && charListLt as bs)

theorem charListLt_irrefl (l : List Char) : charListLt l l = false := by
  induction l with
  | nil => rfl
  | cons a as ih => simp [charListLt, ih, lt_irrefl]

theorem charListLt_trichotomy : ∀ as bs : List Char,
    charListLt as bs = true ∨ as = bs ∨ charListLt bs as = true
  | [], [] => Or.inr (Or.inl rfl)
  | [], _ :: _ => Or.inl rfl
  | _ :: _, [] => Or.inr (Or.inr rfl)
  | a :: as, b :: bs => by
    rcases lt_trichotomy a b with h | h | h
    · exact Or.inl (by simp [charListLt, h])
    · subst h
      rcases charListLt_trichotomy as bs with h2 | h2 | h2
      · exact Or.inl (by simp [charListLt, h2])
      · exact Or.inr (Or.inl (by rw [h2]))
      · exact Or.inr (Or.inr (by simp [charListLt, h2]))
    · exact Or.inr (Or.inr (by simp [charListLt, h]))

theorem charListLt_trans : ∀ {as bs cs : List Char},
    charListLt as bs = true → charListLt bs cs = true →
    charListLt as cs = true
  | [], [], _, h1, _ => by simp [charListLt] at h1
  | [], _ :: _, [], _, h2 => by simp [charListLt] at h2
  | [], _ :: _, _ :: _, _, _ => rfl
  | _ :: _, [], _, h1, _ => by simp [charListLt] at h1
  | _ :: _, _ :: _, [], _, h2 => by simp [charListLt] at h2
  | a :: as, b :: bs, c :: cs, h1, h2 => by
    simp only [charListLt, Bool.or_eq_true, Bool.and_eq_true,
      decide_eq_true_eq, beq_iff_eq] at h1 h2 ⊢
    rcases h1 with h1 | ⟨e1, t1⟩
    · rcases h2 with h2 | ⟨e2, _⟩
      · exact Or.inl (h1.trans h2)
      · exact Or.inl (by rw [e2] at h1; exact h1)
    · rcases h2 with h2 | ⟨e2, t2⟩
      · exact Or.inl (by rw [e1]; exact h2)
      · exact Or.inr ⟨e1.trans e2, charListLt_trans t1 t2⟩

theorem charListLt_asymm {as bs : List Char}
    (h1 : charListLt as bs = true) (h2 : charListLt bs as = true) :
    False := by
  have h3 := charListLt_trans h1 h2
  rw [charListLt_irrefl] at h3
  cases h3

/-- Strict lexicographic comparison of strings by code point. -/
def strLt (a b : String) : Bool := charListLt a.data b.data

/-- Reflexive lexicographic comparison of strings by code point. -/
def strLe (a b : String) : Bool := strLt a b || a == b

theorem string_eq_of_data_eq {a b : String} (h : a.data = b.data) :
    a = b := by
  cases a
  cases b
  exact congrArg String.mk h

theorem strLt_trans {a b c : String} (h1 : strLt a b = true)
    (h2 : strLt b c = true) : strLt a c = true :=
  charListLt_trans h1 h2

theorem strLt_irrefl (a : String) : strLt a a = false :=
  charListLt_irrefl a.data

theorem strLe_cases {a b : String} (h : strLe a b = true) :
    strLt a b = true ∨ a = b := by
  unfold strLe at h
  rw [Bool.or_eq_true] at h
  rcases h with h2 | h2
  · exact Or.inl h2
  · exact Or.inr (by simpa using h2)

theorem strLe_of_lt {a b : String} (h : strLt a b = true) :
    strLe a b = true := by
  unfold strLe
  simp [h]

theorem strLe_refl (a : String) : strLe a a = true := by
  unfold strLe
  simp

theorem strLe_trans {a b c : String} (h1 : strLe a b = true)
    (h2 : strLe b c = true) : strLe a c = true := by
  rcases strLe_cases h1 with hl | he
  · rcases strLe_cases h2 with hl2 | he2
    · exact strLe_of_lt (strLt_trans hl hl2)
    · rw [← he2]
      exact strLe_of_lt hl
  · rw [he]
    exact h2

/-- The sort order of `record_metering_data`: the lexicographic order of the
key tuples `(resource_id, counter_name)`. -/
def sampleLe (a b : DSample) : Prop :=
  strLt a.resource_id b.resource_id = true
    ∨ (a.resource_id = b.resource_id
        ∧ strLe a.counter_name b.counter_name = true)

instance : DecidableRel sampleLe := fun a b => by
  unfold sampleLe
  exact inferInstance

instance : IsTotal DSample sampleLe := by
  constructor
  intro a b
  rcases charListLt_trichotomy a.resource_id.data b.resource_id.data
    with h | h | h
  · exact Or.inl (Or.inl h)
  · have he : a.resource_id = b.resource_id := string_eq_of_data_eq h
    rcases charListLt_trichotomy a.counter_name.data b.counter_name.data
      with h2 | h2 | h2
    · exact Or.inl (Or.inr ⟨he, strLe_of_lt h2⟩)
    · have he2 : a.counter_name = b.counter_name := string_eq_of_data_eq h2
      exact Or.inl (Or.inr ⟨he, by rw [he2]; exact strLe_refl _⟩)
    · exact Or.inr (Or.inr ⟨he.symm, strLe_of_lt h2⟩)
  · exact Or.inr (Or.inl h)

instance : IsTrans DSample sampleLe := by
  constructor
  intro a b c hab hbc
  rcases hab with h1 | ⟨e1, c1⟩
  · rcases hbc with h2 | ⟨e2, _⟩
    · exact Or.inl (strLt_trans h1 h2)
    · exact Or.inl (by rw [e2] at h1; exact h1)
  · rcases hbc with h2 | ⟨e2, c2⟩
    · exact Or.inl (by rw [e1]; exact h2)
    · exact Or.inr ⟨e1.trans e2, strLe_trans c1 c2⟩

/-- `itertools.groupby`: group consecutive elements sharing a key (written
as a right fold so that a new run starts whenever the key changes). -/
def groupRuns {α κ : Type} [BEq κ] (key : α → κ) (l : List α) :
    List (κ × List α) :=
  l.foldr
    (fun a acc =>
      match acc with
      | [] => [(key a, [a])]
      | (k, g) :: rest =>
        if key a == k then (key a, a :: g) :: rest
        else (key a, [a]) :: (k, g) :: rest)
    []

/-- The nested grouping of `record_metering_data`: group the (already
sorted) batch by `resource_id`, then each resource group by
`counter_name`. -/
def grouped_samples (sorted : List DSample) :
    List (String × List (String × List DSample)) :=
  (groupRuns (fun s => s.resource_id) sorted).map
    (fun g => (g.1, groupRuns (fun s => s.counter_name) g.2))

/-- An error escaping `record_metering_data`: a project-id resolution
failure or the archive-policy `KeyError`. -/
inductive DispErr
  | resolveError
  | keyError (key : String)
deriving DecidableEq

/-- Fold `_process_resource` over the resource groups; an uncaught error
aborts the batch. -/
def dispatch_groups (env : Env) :
    List (String × List (String × List DSample)) → St → Except DispErr St
  | [], st => Except.ok st
  | (resource_id, groups) :: rest, st =>
    match process_resource env resource_id groups st with
    | Except.error k => Except.error (DispErr.keyError k)
    | Except.ok st => dispatch_groups env rest st

/-- `GnocchiDispatcher.record_metering_data`: drop gnocchi self activity,
stable-sort by `(resource_id, counter_name)`, group by resource then meter,
and process each resource group in order. -/
def record_metering_data (env : Env) (data : List DSample) :
    Except DispErr St :=
  match filter_activity env data with
  | Except.error _ => Except.error DispErr.resolveError
  | Except.ok d =>
    dispatch_groups env (grouped_samples (List.insertionSort sampleLe d))
      St.init

/-- Recognizer for `post_measure` calls. -/
def isPostCall : GCall → Bool
  | GCall.postMeasure _ _ _ _ => true
  | _ => false

/-- Recognizer for `create_resource` calls. -/
def isCreateResourceCall : GCall → Bool
  | GCall.createResource _ _ => true
  | _ => false

/-- Recognizer for `create_metric` calls. -/
def isCreateMetricCall : GCall → Bool
  | GCall.createMetric _ _ _ _ => true
  | _ => false

/-- Recognizer for `update_resource` calls. -/
def isUpdateCall : GCall → Bool
  | GCall.updateResource _ _ _ => true
  | _ => false

/-- Recognizer for `cache.set` calls. -/
def isCacheSetCall : GCall → Bool
  | GCall.cacheSet _ _ _ => true
  | _ => false

/-- Count the calls of one kind in a trace. -/
def countCalls (p : GCall → Bool) (l : List GCall) : Nat :=
  (l.filter p).length

/-- A nova instance record as seen by discovery: its id and the
`OS-EXT-STS:vm_state` attribute (absent on some records, hence optional). -/
structure NovaInstance where
  id : String
  vm_state : Option String
deriving DecidableEq

/-- The terminal-state test
`getattr(instance, vm_state, None) in ['deleted', 'error']`. -/
def terminalState (o : Option String) : Bool :=
  o == some "deleted" || o == some "error"

/-- The upsert/remove loop of `InstanceDiscovery.discover`: a terminal
instance is popped from the tracked dict, any other one is upserted. -/
def applyInstances (m : List (String × NovaInstance)) :
    List NovaInstance → List (String × NovaInstance)
  | [] => m
  | i :: rest =>
    applyInstances
      (if terminalState i.vm_state then dictRemove m i.id
       else dictSet m i.id i) rest

/-- The mutable state of `InstanceDiscovery`. -/
structure DiscoveryState where
  last_run : Option Int
  instances : List (String × NovaInstance)
  period : Int
deriving DecidableEq

/-- The nova client enumerations consumed by discovery. -/
structure DiscEnv where
  listByHost : List NovaInstance
  listByHostSince : Int → List NovaInstance

/-- An enumeration network call made by discovery. -/
inductive DiscCall
  | enumFull
  | enumSince (since : Int)
deriving DecidableEq

/-- Python `timedelta.seconds` for a time difference given in seconds: the
seconds component only, i.e. the value modulo one day (86400), with days
and microseconds discarded. -/
def tdSeconds (d : Int) : Int := d % 86400

/-- `InstanceDiscovery.discover`: on the first call enumerate everything on
the host; afterwards re-enumerate (incrementally, changed since `last_run`)
only when `(utcnow() - last_run).seconds > period`, updating `last_run`;
always return the values of the tracked dict. -/
def discover (env : DiscEnv) (now : Int) (s : DiscoveryState) :
    List NovaInstance × DiscoveryState × List DiscCall :=
  match s.last_run with
  | none =>
    let instances := applyInstances s.instances env.listByHost
    (instances.map (fun p => p.2),
      { s with last_run := some now, instances := instances },
      [DiscCall.enumFull])
  | some lr =>
    if tdSeconds (now - lr) > s.period then
      let instances := applyInstances s.instances (env.listByHostSince lr)
      (instances.map (fun p => p.2),
        { s with last_run := some now, instances := instances },
        [DiscCall.enumSince lr])
    else
      (s.instances.map (fun p => p.2), s, [])

/-- An authenticated keystone client (opaque). -/
structure KsClient where
  token : Nat
deriving DecidableEq

/-- The keystone `ClientException` kind caught by `AgentManager.keystone`. -/
inductive KsError
  | clientException (code : Nat)
deriving DecidableEq

/-- The memoization fields of `AgentManager`: the cached client and the
cached acquisition failure. -/
structure AgentState where
  keystone : Option KsClient
  keystone_last_exception : Option KsError
deriving DecidableEq

/-- `AgentManager.keystone`: attempt acquisition only when neither a client
nor a failure is cached; cache the outcome; then return the cached client
or re-raise the cached exception.  The third component counts the
acquisition attempts performed by this call (0 or 1). -/
def keystone_get (acquire : Except KsError KsClient) (s : AgentState) :
    Except KsError KsClient × AgentState × Nat :=
  let step :=
    if s.keystone = none ∧ s.keystone_last_exception = none then
      match acquire with
      | Except.ok c => (AgentState.mk (some c) none, 1)
      | Except.error e => (AgentState.mk none (some e), 1)
    else (s, 0)
  match step.1.keystone with
  | some c => (Except.ok c, step.1, step.2)
  | none =>
    (Except.error
        (step.1.keystone_last_exception.getD (KsError.clientException 0)),
      step.1, step.2)

/-- The reset at the top of `AgentManager.interval_task`: drop both the
cached client and the cached exception for the new polling cycle. -/
def interval_task_reset (_s : AgentState) : AgentState :=
  AgentState.mk none none

/-- A compute instance handed to a pollster. -/
structure Instance where
  id : String
deriving DecidableEq

/-- A produced sample.  Modelled from the spec: the
`util.make_sample_from_instance` helper is outside the sources; per the
spec a Sample carries the meter name, its kind, unit, volume and the
resource it was measured on. -/
structure PSample where
  name : String
  sample_type : String
  unit : String
  volume : Rat
  instance_id : String
deriving DecidableEq

/-- Build the sample a pollster yields for one instance. -/
def make_sample_from_instance (i : Instance)
    (name sample_type unit : String) (volume : Rat) : PSample :=
  ⟨name, sample_type, unit, volume, i.id⟩

/-- The level of a log line emitted when a pollster skips a resource. -/
inductive PLog
  | debug
  | warn
  | exceptionLog
deriving DecidableEq

/-- The failure modes of `inspect_memory_usage` classified by
`MemoryUsagePollster.get_samples`. -/
inductive MemErr
  | instanceNotFound
  | instanceShutOff
  | noData
  | notImplemented
  | unexpected
deriving DecidableEq

/-- The log level for each handled inspection failure: debug for a gone or
unsupported instance, warn for shut-off or no-data, a full exception log
otherwise. -/
def memLog : MemErr → PLog
  | MemErr.instanceNotFound => PLog.debug
  | MemErr.instanceShutOff => PLog.warn
  | MemErr.noData => PLog.warn
  | MemErr.notImplemented => PLog.debug
  | MemErr.unexpected => PLog.exceptionLog

/-- `MemoryUsagePollster.get_samples`: yield one `memory.usage` gauge
sample per successfully inspected instance; every classified failure is
logged and skipped and the loop continues with the next resource. -/
def memory_usage_get_samples (inspect : Instance → Except MemErr Rat) :
    List Instance → List PSample × List PLog
  | [] => ([], [])
  | i :: rest =>
    let tail := memory_usage_get_samples inspect rest
    match inspect i with
    | Except.ok usage =>
      (make_sample_from_instance i "memory.usage" "gauge" "MB" usage
          :: tail.1, tail.2)
    | Except.error e => (tail.1, memLog e :: tail.2)

/-- The failure modes of `inspect_oom_status` classified by
`InstanceOOMStatusPollster.get_samples`. -/
inductive OomErr
  | instanceNotFound
  | unexpected
deriving DecidableEq

/-- The log level for each handled OOM-inspection failure. -/
def oomLog : OomErr → PLog
  | OomErr.instanceNotFound => PLog.debug
  | OomErr.unexpected => PLog.exceptionLog

/-- `InstanceOOMStatusPollster.get_samples`: the inspector returns an
optional boolean; `None` raises `NotImplementedError`, which is caught and
debug-logged; otherwise one gauge sample with volume 1 (true) or 0 (false)
is yielded; failures are logged and skipped. -/
def oom_status_get_samples
    (inspect : Instance → Except OomErr (Option Bool)) :
    List Instance → List PSample × List PLog
  | [] => ([], [])
  | i :: rest =>
    let tail := oom_status_get_samples inspect rest
    match inspect i with
    | Except.ok (some b) =>
      (make_sample_from_instance i "instance.oom.status" "gauge" "instance"
          (if b then 1 else 0) :: tail.1, tail.2)
    | Except.ok none => (tail.1, PLog.debug :: tail.2)
    | Except.error e => (tail.1, oomLog e :: tail.2)

/-- The failure modes of `inspect_ping_delay` classified by
`InstancePingDelayPollster.get_samples`. -/
inductive PingErr
  | instanceNotFound
  | unexpected
deriving DecidableEq

/-- The log level for each handled ping-inspection failure. -/
def pingLog : PingErr → PLog
  | PingErr.instanceNotFound => PLog.debug
  | PingErr.unexpected => PLog.exceptionLog

/-- `InstancePingDelayPollster.get_samples`: a `None` delay raises
`NotImplementedError` (caught, debug-logged, skipped); an empty string
yields the timeout volume 999; otherwise the delay is parsed by the Python
`float` builtin (outside the sources, modelled by the `pyfloat` oracle) and
an unparsable value also yields 999; one gauge sample per inspected
instance. -/
def ping_delay_get_samples
    (inspect : Instance → Except PingErr (Option String))
    (pyfloat : String → Option Rat) :
    List Instance → List PSample × List PLog
  | [] => ([], [])
  | i :: rest =>
    let tail := ping_delay_get_samples inspect pyfloat rest
    match inspect i with
    | Except.ok (some d) =>
      let delay : Rat :=
        if d = "" then 999
        else
          match pyfloat d with
          | some v => v
          | none => 999
      (make_sample_from_instance i "instance.ping.delay" "gauge" "instance"
          delay :: tail.1, tail.2)
    | Except.ok none => (tail.1, PLog.debug :: tail.2)
    | Except.error e => (tail.1, pingLog e :: tail.2)

theorem memory_usage_get_samples_append
    (inspect : Instance → Except MemErr Rat) (l1 l2 : List Instance) :
    memory_usage_get_samples inspect (l1 ++ l2)
      = ((memory_usage_get_samples inspect l1).1
            ++ (memory_usage_get_samples inspect l2).1,
         (memory_usage_get_samples inspect l1).2
            ++ (memory_usage_get_samples inspect l2).2) := by
  induction l1 with
  | nil => simp [memory_usage_get_samples]
  | cons a as ih =>
    simp only [List.cons_append, memory_usage_get_samples, ih]
    cases h : inspect a <;> simp [ih]

theorem oom_status_get_samples_append
    (inspect : Instance → Except OomErr (Option Bool)) (l1 l2 : List Instance) :
    oom_status_get_samples inspect (l1 ++ l2)
      = ((oom_status_get_samples inspect l1).1
            ++ (oom_status_get_samples inspect l2).1,
         (oom_status_get_samples inspect l1).2
            ++ (oom_status_get_samples inspect l2).2) := by
  induction l1 with
  | nil => simp [oom_status_get_samples]
  | cons a as ih =>
    simp only [List.cons_append, oom_status_get_samples, ih]
    cases h : inspect a with
    | ok o => cases o <;> simp [ih]
    | error e => simp [ih]

theorem ping_delay_get_samples_append
    (inspect : Instance → Except PingErr (Option String))
    (pyfloat : String → Option Rat) (l1 l2 : List Instance) :
    ping_delay_get_samples inspect pyfloat (l1 ++ l2)
      = ((ping_delay_get_samples inspect pyfloat l1).1
            ++ (ping_delay_get_samples inspect pyfloat l2).1,
         (ping_delay_get_samples inspect pyfloat l1).2
            ++ (ping_delay_get_samples inspect pyfloat l2).2) := by
  induction l1 with
  | nil => simp [ping_delay_get_samples]
  | cons a as ih =>
    simp only [List.cons_append, ping_delay_get_samples, ih]
    cases h : inspect a with
    | ok o => cases o <;> simp [ih]
    | error e => simp [ih]

/-- C9: for `MemoryUsagePollster.get_samples` and
`InstanceOOMStatusPollster.get_samples`, a failure while inspecting one
resource (gone, unsupported, no data, shut off, or unexpected) is caught,
logged at the classified level, and skipped: the samples for the remaining
resources are produced exactly as if the failing resource were absent, so
no single resource's failure terminates the sequence. -/
theorem C9_pollster_failure_isolation
    (inspectM : Instance → Except MemErr Rat)
    (inspectO : Instance → Except OomErr (Option Bool))
    (pre post : List Instance) (i j : Instance) (eM : MemErr)
    (hM : inspectM i = Except.error eM)
    (hO : inspectO j = Except.ok none ∨ ∃ eO, inspectO j = Except.error eO) :
    (memory_usage_get_samples inspectM (pre ++ i :: post)).1
        = (memory_usage_get_samples inspectM pre).1
          ++ (memory_usage_get_samples inspectM post).1
    ∧ (memory_usage_get_samples inspectM (pre ++ i :: post)).2
        = (memory_usage_get_samples inspectM pre).2
          ++ memLog eM :: (memory_usage_get_samples inspectM post).2
    ∧ (oom_status_get_samples inspectO (pre ++ j :: post)).1
        = (oom_status_get_samples inspectO pre).1
          ++ (oom_status_get_samples inspectO post).1 := by
  have hmem := memory_usage_get_samples_append inspectM pre (i :: post)
  have hoom := oom_status_get_samples_append inspectO pre (j :: post)
  refine ⟨?_, ?_, ?_⟩
  · rw [hmem]
    simp [memory_usage_get_samples, hM]
  · rw [hmem]
    simp [memory_usage_get_samples, hM]
  · rw [hoom]
    rcases hO with h | ⟨eO, h⟩ <;> simp [oom_status_get_samples, h]

/-- C9 witness: a concrete failing resource in the middle of a batch is
skipped with its log line while its neighbours are sampled. -/
theorem C9_pollster_failure_isolation_witness :
    (memory_usage_get_samples
        (fun x => if x.id = "bad" then Except.error MemErr.noData
                  else Except.ok 7)
        [⟨"a"⟩, ⟨"bad"⟩, ⟨"b"⟩]).1
      = (memory_usage_get_samples
          (fun x => if x.id = "bad" then Except.error MemErr.noData
                    else Except.ok 7) [⟨"a"⟩]).1
        ++ (memory_usage_get_samples
            (fun x => if x.id = "bad" then Except.error MemErr.noData
                      else Except.ok 7) [⟨"b"⟩]).1 :=
  (C9_pollster_failure_isolation
    (fun x => if x.id = "bad" then Except.error MemErr.noData
              else Except.ok 7)
    (fun _ => Except.ok none) [⟨"a"⟩] [⟨"b"⟩] ⟨"bad"⟩ ⟨"bad"⟩
    MemErr.noData rfl (Or.inl rfl)).1

/-- C10: for every resource for which the inspector returns a non-None
ping-delay value, `InstancePingDelayPollster` yields exactly one gauge
sample for it, whose volume is the value parsed as a float, with an empty
or unparsable value giving volume 999; surrounding resources are
unaffected. -/
theorem C10_ping_delay_volume
    (inspect : Instance → Except PingErr (Option String))
    (pyfloat : String → Option Rat) (pre post : List Instance)
    (i : Instance) (d : String)
    (h : inspect i = Except.ok (some d)) :
    (ping_delay_get_samples inspect pyfloat (pre ++ i :: post)).1
      = (ping_delay_get_samples inspect pyfloat pre).1
        ++ make_sample_from_instance i "instance.ping.delay" "gauge"
             "instance"
             (if d = "" then 999 else (pyfloat d).getD 999)
           :: (ping_delay_get_samples inspect pyfloat post).1 := by
  rw [ping_delay_get_samples_append inspect pyfloat pre (i :: post)]
  simp only [ping_delay_get_samples, h]
  by_cases hd : d = ""
  · simp [hd]
  · cases hf : pyfloat d <;> simp [hd, hf]

/-- C10 witness: an unparsable non-empty delay string yields volume 999 for
its instance. -/
theorem C10_ping_delay_volume_witness :
    (ping_delay_get_samples (fun _ => Except.ok (some "oops"))
        (fun _ => none) [⟨"i1"⟩]).1
      = [make_sample_from_instance ⟨"i1"⟩ "instance.ping.delay" "gauge"
          "instance" 999] := by
  have := C10_ping_delay_volume (fun _ => Except.ok (some "oops"))
    (fun _ => none) [] [] ⟨"i1"⟩ "oops" rfl
  simpa using this

/-- C8: within one cycle the first `get()` attempts acquisition and caches
the outcome; a later `get()` with a cached client returns it with no new
attempt; a later `get()` with a cached failure re-raises exactly that
cached error with no new attempt, whatever a fresh attempt would yield; and
the `interval_task` reset clears both caches so the next `get()` performs a
fresh acquisition attempt. -/
theorem C8_keystone_broker (acquire : Except KsError KsClient)
    (s : AgentState) (c : KsClient) (e : KsError) :
    (s = AgentState.mk none none →
      keystone_get acquire s
        = match acquire with
          | Except.ok c0 => (Except.ok c0, AgentState.mk (some c0) none, 1)
          | Except.error e0 =>
            (Except.error e0, AgentState.mk none (some e0), 1))
    ∧ (s.keystone = some c → keystone_get acquire s = (Except.ok c, s, 0))
    ∧ (s.keystone = none → s.keystone_last_exception = some e →
        keystone_get acquire s = (Except.error e, s, 0))
    ∧ keystone_get acquire (interval_task_reset s)
        = keystone_get acquire (AgentState.mk none none)
    ∧ (keystone_get acquire (interval_task_reset s)).2.2 = 1 := by
  refine ⟨?_, ?_, ?_, ?_, ?_⟩
  · intro hs
    subst hs
    cases acquire <;> simp [keystone_get]
  · intro hc
    obtain ⟨k1, k2⟩ := s
    simp only at hc
    subst hc
    simp [keystone_get]
  · intro hc he
    obtain ⟨k1, k2⟩ := s
    simp only at hc he
    subst hc
    subst he
    simp [keystone_get]
  · rfl
  · simp only [interval_task_reset]
    cases acquire <;> simp [keystone_get]

/-- C8 witness: after a cached failure, a later `get()` re-raises the
cached error with zero fresh acquisition attempts. -/
theorem C8_keystone_broker_witness :
    keystone_get (Except.ok (KsClient.mk 9))
        (AgentState.mk none (some (KsError.clientException 5)))
      = (Except.error (KsError.clientException 5),
         AgentState.mk none (some (KsError.clientException 5)), 0) :=
  (C8_keystone_broker (Except.ok (KsClient.mk 9))
    (AgentState.mk none (some (KsError.clientException 5)))
    (KsClient.mk 0) (KsError.clientException 5)).2.2.1 rfl rfl

/-- The tracked-set invariant: no stored instance has a terminal state. -/
def trackedInv (m : List (String × NovaInstance)) : Prop :=
  ∀ p ∈ m, terminalState p.2.vm_state = false

theorem mem_dictSet {α : Type} {m : List (String × α)} {k : String} {v : α}
    {p : String × α} (h : p ∈ dictSet m k v) : p ∈ m ∨ p = (k, v) := by
  unfold dictSet at h
  split at h
  · rcases List.mem_map.mp h with ⟨q, hq, he⟩
    by_cases hk : q.1 == k
    · simp [hk] at he
      exact Or.inr he.symm
    · simp [hk] at he
      exact Or.inl (he ▸ hq)
  · rcases List.mem_append.mp h with h1 | h1
    · exact Or.inl h1
    · simp at h1
      exact Or.inr h1

theorem mem_dictRemove {α : Type} {m : List (String × α)} {k : String}
    {p : String × α} (h : p ∈ dictRemove m k) : p ∈ m :=
  List.mem_of_mem_filter h

theorem trackedInv_applyInstances {m : List (String × NovaInstance)}
    (L : List NovaInstance) (hm : trackedInv m) :
    trackedInv (applyInstances m L) := by
  induction L generalizing m with
  | nil => exact hm
  | cons i rest ih =>
    simp only [applyInstances]
    apply ih
    split
    · intro p hp
      exact hm p (mem_dictRemove hp)
    · next hterm =>
      intro p hp
      rcases mem_dictSet hp with hpm | hpe
      · exact hm p hpm
      · subst hpe
        simpa using hterm

theorem dictGet_dictRemove_self {α : Type} (m : List (String × α))
    (k : String) : dictGet (dictRemove m k) k = none := by
  induction m with
  | nil => rfl
  | cons p rest ih =>
    by_cases hk : p.1 == k
    · simpa [dictRemove, dictGet, hk] using ih
    · simpa [dictRemove, dictGet, List.find?, hk] using ih

theorem dictGet_cons {α : Type} (p : String × α) (m : List (String × α))
    (k : String) :
    dictGet (p :: m) k = if p.1 == k then some p.2 else dictGet m k := by
  by_cases h : p.1 == k <;> simp [dictGet, List.find?, h]

theorem dictGet_of_any_eq_false {α : Type} {m : List (String × α)}
    {k : String} (h : m.any (fun p => p.1 == k) = false) :
    dictGet m k = none := by
  induction m with
  | nil => rfl
  | cons p rest ih =>
    simp only [List.any_cons, Bool.or_eq_false_iff] at h
    rw [dictGet_cons]
    simp [h.1, ih h.2]

theorem dictGet_append {α : Type} (m1 m2 : List (String × α)) (k : String) :
    dictGet (m1 ++ m2) k
      = (dictGet m1 k).orElse (fun _ => dictGet m2 k) := by
  induction m1 with
  | nil => simp [dictGet]
  | cons p rest ih =>
    rw [List.cons_append, dictGet_cons, dictGet_cons]
    by_cases h : p.1 == k <;> simp [h, ih]

theorem dictGet_replace_self {α : Type} (m : List (String × α)) (k : String)
    (v : α) (hany : m.any (fun p => p.1 == k) = true) :
    dictGet (m.map (fun p => if p.1 == k then (k, v) else p)) k = some v := by
  induction m with
  | nil => simp at hany
  | cons p rest ih =>
    by_cases hk : p.1 == k
    · have hp : p.1 = k := by simpa using hk
      simp [dictGet_cons, hp]
    · have hp : ¬p.1 = k := by simpa using hk
      simp only [List.any_cons, hk, Bool.false_or] at hany
      simpa [dictGet_cons, hp] using ih hany

theorem dictGet_dictSet_self {α : Type} (m : List (String × α)) (k : String)
    (v : α) : dictGet (dictSet m k v) k = some v := by
  unfold dictSet
  split
  · next hany => exact dictGet_replace_self m k v hany
  · next hany =>
    have h0 : dictGet m k = none :=
      dictGet_of_any_eq_false (Bool.eq_false_iff.mpr hany)
    rw [dictGet_append, h0, dictGet_cons]
    simp

theorem dictGet_replace_other {α : Type} (m : List (String × α))
    (k k2 : String) (v : α) (hne : k2 ≠ k) :
    dictGet (m.map (fun p => if p.1 == k then (k, v) else p)) k2
      = dictGet m k2 := by
  induction m with
  | nil => rfl
  | cons p rest ih =>
    by_cases hk : p.1 == k
    · have hp : p.1 = k := by simpa using hk
      simpa [dictGet_cons, hp, Ne.symm hne] using ih
    · have hp : ¬p.1 = k := by simpa using hk
      by_cases hp2 : p.1 = k2
      · simp [dictGet_cons, hp, hp2, hne]
      · simpa [dictGet_cons, hp, hp2] using ih

theorem dictGet_dictSet_other {α : Type} (m : List (String × α))
    (k k2 : String) (v : α) (hne : k2 ≠ k) :
    dictGet (dictSet m k v) k2 = dictGet m k2 := by
  unfold dictSet
  split
  · exact dictGet_replace_other m k k2 v hne
  · rw [dictGet_append]
    have h1 : dictGet [(k, v)] k2 = none := by
      rw [dictGet_cons]
      simp [Ne.symm hne, dictGet]
    rw [h1]
    cases h : dictGet m k2 <;> simp

theorem dictGet_dictRemove_other {α : Type} (m : List (String × α))
    (k k2 : String) (hne : k2 ≠ k) :
    dictGet (dictRemove m k) k2 = dictGet m k2 := by
  induction m with
  | nil => rfl
  | cons p rest ih =>
    by_cases hk : p.1 == k
    · have hp : p.1 = k := by simpa using hk
      have hL : dictRemove (p :: rest) k = dictRemove rest k := by
        simp [dictRemove, hk]
      rw [hL, ih, dictGet_cons]
      simp [hp, Ne.symm hne]
    · have hL : dictRemove (p :: rest) k = p :: dictRemove rest k := by
        simp [dictRemove, hk]
      rw [hL, dictGet_cons, dictGet_cons, ih]

theorem applyInstances_lookup_not_mem {m : List (String × NovaInstance)}
    {L : List NovaInstance} {k : String} (h : ∀ i ∈ L, i.id ≠ k) :
    dictGet (applyInstances m L) k = dictGet m k := by
  induction L generalizing m with
  | nil => rfl
  | cons i rest ih =>
    simp only [applyInstances]
    have hik : i.id ≠ k := h i (List.mem_cons_self i rest)
    have hrest : ∀ x ∈ rest, x.id ≠ k :=
      fun x hx => h x (List.mem_cons_of_mem i hx)
    rw [ih hrest]
    split
    · exact dictGet_dictRemove_other m i.id k (fun hk => hik hk.symm)
    · exact dictGet_dictSet_other m i.id k i (fun hk => hik hk.symm)

theorem applyInstances_lookup_of_mem {m : List (String × NovaInstance)}
    {L : List NovaInstance} {i : NovaInstance}
    (hn : (L.map (fun x => x.id)).Nodup) (hi : i ∈ L) :
    dictGet (applyInstances m L) i.id
      = if terminalState i.vm_state then none else some i := by
  induction L generalizing m with
  | nil => cases hi
  | cons j rest ih =>
    have hn2 : (∀ x ∈ rest, ¬x.id = j.id)
        ∧ (rest.map (fun x => x.id)).Nodup := by
      simpa using hn
    rcases List.mem_cons.mp hi with he | hmem
    · subst he
      have hrest : ∀ x ∈ rest, x.id ≠ i.id := fun x hx => hn2.1 x hx
      simp only [applyInstances]
      rw [applyInstances_lookup_not_mem hrest]
      split
      · next hterm => simp [hterm, dictGet_dictRemove_self]
      · next hterm =>
        simp only [Bool.not_eq_true] at hterm
        simp [hterm, dictGet_dictSet_self]
    · simp only [applyInstances]
      exact ih hn2.2 hmem

/-- C7: after every `discover` invocation the tracked set still contains no
terminal instance (given it contained none before, as initially); the
returned collection is exactly the full current tracked set; and for an
enumeration batch with distinct ids, every enumerated terminal instance is
absent from the merged set (even if previously present) while every
non-terminal one is present under its id. -/
theorem C7_tracked_set_terminal_free (env : DiscEnv) (now : Int)
    (s : DiscoveryState) (m : List (String × NovaInstance))
    (L : List NovaInstance) (i : NovaInstance)
    (hs : trackedInv s.instances) (hm : trackedInv m)
    (hn : (L.map (fun x => x.id)).Nodup) (hiL : i ∈ L) :
    trackedInv (discover env now s).2.1.instances
    ∧ (discover env now s).1
        = (discover env now s).2.1.instances.map (fun p => p.2)
    ∧ (terminalState i.vm_state = true →
        dictGet (applyInstances m L) i.id = none)
    ∧ (terminalState i.vm_state = false →
        dictGet (applyInstances m L) i.id = some i) := by
  refine ⟨?_, ?_, ?_, ?_⟩
  · unfold discover
    match hlr : s.last_run with
    | none => exact trackedInv_applyInstances _ hs
    | some lr =>
      by_cases hp : tdSeconds (now - lr) > s.period
      · simp only [hp, if_true]
        exact trackedInv_applyInstances _ hs
      · simpa [hp] using hs
  · unfold discover
    match hlr : s.last_run with
    | none => rfl
    | some lr =>
      by_cases hp : tdSeconds (now - lr) > s.period
      · simp [hp]
      · simp [hp]
  · intro hterm
    rw [applyInstances_lookup_of_mem hn hiL]
    simp [hterm]
  · intro hterm
    rw [applyInstances_lookup_of_mem hn hiL]
    simp [hterm]

/-- C7 witness: a concrete discovery step removes a newly terminal instance
and keeps the tracked set terminal-free. -/
theorem C7_tracked_set_terminal_free_witness :
    dictGet
      (applyInstances [("a", NovaInstance.mk "a" (some "active"))]
        [NovaInstance.mk "a" (some "deleted"),
         NovaInstance.mk "b" (some "active")]) "a" = none :=
  (C7_tracked_set_terminal_free
    (DiscEnv.mk [] (fun _ => [])) 0
    (DiscoveryState.mk none [] 120)
    [("a", NovaInstance.mk "a" (some "active"))]
    [NovaInstance.mk "a" (some "deleted"), NovaInstance.mk "b" (some "active")]
    (NovaInstance.mk "a" (some "deleted"))
    (by intro p hp; cases hp)
    (by
      intro p hp
      rw [List.mem_singleton] at hp
      subst hp
      rfl)
    (by decide)
    (List.mem_cons_self _ _)).2.2.1 (by decide)

/-- C6 (code-bug evaluation): with `period = 120` and `last_run = 0`, a
`discover` call at `now = 86460` — one day plus sixty seconds later, so the
elapsed time far exceeds the period — performs no enumeration call and
leaves the tracked set and `last_run` unchanged, because
`(utcnow() - last_run).seconds` is only the seconds component of the
difference and wraps modulo one day: `86460 % 86400 = 60`, which is not
greater than 120. -/
theorem C6_discovery_period_day_wrap :
    (86460 : Int) - 0 > 120
    ∧ tdSeconds (86460 - 0) = 60
    ∧ discover
        (DiscEnv.mk [] (fun _ => [NovaInstance.mk "b" (some "active")]))
        86460
        (DiscoveryState.mk (some 0)
          [("a", NovaInstance.mk "a" (some "active"))] 120)
      = ([NovaInstance.mk "a" (some "active")],
         DiscoveryState.mk (some 0)
           [("a", NovaInstance.mk "a" (some "active"))] 120,
         []) := by
  refine ⟨by norm_num, by decide, by decide⟩

theorem filter_activity_ok (env : Env) (p : DSample → Bool)
    (hp : ∀ s, is_gnocchi_activity env s = Except.ok (p s)) :
    ∀ l : List DSample,
      filter_activity env l = Except.ok (l.filter (fun s => !(p s))) := by
  intro l
  induction l with
  | nil => rfl
  | cons s rest ih =>
    simp only [filter_activity, hp s, ih]
    by_cases hb : p s <;> simp [hb, List.filter_cons]

/-- C5: with the service-activity filter enabled and the gnocchi project id
resolving to `pid`, the dispatch filter drops exactly those samples whose
project id equals `pid`, or whose resource id equals `pid` while the sample
matches a `swift_account` resource definition; and when the project id
fails to resolve, the failure is fatal and propagates out of
`record_metering_data` for every non-empty batch. -/
theorem C5_self_activity_filter (env : Env) (pid : String)
    (data : List DSample) :
    (env.filter_service_activity = true →
      env.gnocchi_project_id = Except.ok pid →
      filter_activity env data
        = Except.ok (data.filter (fun s =>
            !(s.project_id == pid
              || (s.resource_id == pid
                  && is_swift_account_sample env.resources_definition s)))))
    ∧ (env.filter_service_activity = true →
        env.gnocchi_project_id = Except.error () →
        data ≠ [] →
        record_metering_data env data = Except.error DispErr.resolveError) := by
  constructor
  · intro hflag hpid
    apply filter_activity_ok
    intro s
    simp [is_gnocchi_activity, hflag, hpid]
  · intro hflag herr hne
    cases data with
    | nil => exact absurd rfl hne
    | cons s rest =>
      have h1 : is_gnocchi_activity env s = Except.error () := by
        simp [is_gnocchi_activity, hflag, herr]
      simp [record_metering_data, filter_activity, h1]

/-- A dispatcher configuration with the service-activity filter enabled, a
resolved gnocchi project id and one `swift_account` resource definition. -/
def envC5 : Env :=
  { post := fun _ => PostR.ok, createRes := fun _ => CreateResR.ok,
    createMet := fun _ => CreateMetR.ok, update := fun _ => UpdateR.ok,
    cacheGet := fun _ => none, cacheConfigured := false,
    archive_policy := none,
    resources_definition := [RDef.mk "swift_account" ["storage.*"] none false []],
    filter_service_activity := true,
    gnocchi_project_id := Except.ok "gp" }

/-- C5 witness: a sample owned by the gnocchi project and a storage-account
sample on the gnocchi project's resource are dropped, a plain sample is
kept. -/
theorem C5_self_activity_filter_witness :
    filter_activity envC5
      [DSample.mk "r1" "cpu" "u" "gp" 1 0,
       DSample.mk "gp" "storage.objects" "u" "p2" 2 0,
       DSample.mk "r3" "cpu" "u" "p3" 3 0]
      = Except.ok [DSample.mk "r3" "cpu" "u" "p3" 3 0] := by
  have h := (C5_self_activity_filter envC5 "gp"
    [DSample.mk "r1" "cpu" "u" "gp" 1 0,
     DSample.mk "gp" "storage.objects" "u" "p2" 2 0,
     DSample.mk "r3" "cpu" "u" "p3" 3 0]).1 rfl rfl
  rw [h]
  rfl

/-- A dispatcher configuration whose single resource definition maps the
wildcard pattern `disk.*` to the `instance` resource type, with the backend
reporting `NoSuchMetric` on every post. -/
def envC2 : Env :=
  { post := fun _ => PostR.noSuchMetric,
    createRes := fun _ => CreateResR.ok,
    createMet := fun _ => CreateMetR.ok,
    update := fun _ => UpdateR.ok,
    cacheGet := fun _ => none, cacheConfigured := false,
    archive_policy := some "low",
    resources_definition := [RDef.mk "instance" ["disk.*"] none false []],
    filter_service_activity := false,
    gnocchi_project_id := Except.ok "gp" }

/-- C2 (code-bug evaluation): when the meter `disk.read` is matched only
via the wildcard pattern `disk.*`, a first post failing with `NoSuchMetric`
sends the repair into the archive-policy lookup
`resource['metrics'][metric_name]`; that map is keyed by the declared
patterns, so the lookup raises an uncaught `KeyError`: exactly one
post-measurements call is made, the post is never retried, no error is
logged, and the whole batch aborts instead of moving on to the next meter
group. -/
theorem C2_nosuchmetric_repair_keyerror :
    record_metering_data envC2 [DSample.mk "r1" "disk.read" "u" "p" 3 5]
        = Except.error (DispErr.keyError "disk.read")
    ∧ (process_resource_body envC2 "r1"
          [("disk.read", [DSample.mk "r1" "disk.read" "u" "p" 3 5])]
          St.init).1
        = Except.error (WErr.keyError "disk.read")
    ∧ countCalls isPostCall
        (process_resource_body envC2 "r1"
          [("disk.read", [DSample.mk "r1" "disk.read" "u" "p" 3 5])]
          St.init).2.calls = 1
    ∧ (process_resource_body envC2 "r1"
          [("disk.read", [DSample.mk "r1" "disk.read" "u" "p" 3 5])]
          St.init).2.logs = [] := by
  refine ⟨by decide, by decide, by decide, by decide⟩

/-- The resource dictionary used for the ensure-resource cache
counterexample: plain attributes and a literal metric entry. -/
def resC3 : GResource :=
  GResource.mk [("id", "r1"), ("user_id", "u"), ("project_id", "p")]
    [("m", some "low")]

/-- A configuration with a cache whose entries already hold the content
hash of `resC3`. -/
def envC3 : Env :=
  { post := fun _ => PostR.ok, createRes := fun _ => CreateResR.ok,
    createMet := fun _ => CreateMetR.ok, update := fun _ => UpdateR.ok,
    cacheGet := fun _ =>
      some (frozensetHash (dictRemove resC3.attrs "metrics")),
    cacheConfigured := true, archive_policy := none,
    resources_definition := [], filter_service_activity := false,
    gnocchi_project_id := Except.ok "gp" }

/-- C3 counterexample: with a cache configured and the cached hash matching
the resource's content hash, `_ensure_resource_and_metric` makes no
resource-creation call at all — refuting that every call attempts to create
the backend resource — while finishing successfully with only the final
metric-creation attempt. -/
theorem C3_counterexample :
    countCalls isCreateResourceCall
        (ensure_resource_and_metric envC3 "instance" resC3 "m"
          St.init).2.calls = 0
    ∧ (ensure_resource_and_metric envC3 "instance" resC3 "m" St.init).1
        = Except.ok ()
    ∧ (ensure_resource_and_metric envC3 "instance" resC3 "m" St.init).2.calls
        = [GCall.createMetric "instance" "r1" "m" (some "low")] := by
  refine ⟨by decide, by decide, by decide⟩

/-- C3 (amended): for a meter name that appears literally in the declared
metrics map, `_ensure_resource_and_metric` attempts to create the backend
resource with its full metric-policy map whenever no cache is configured,
or whenever the (double-checked) cached hash still differs from the
resource's content hash — storing the fresh hash with TTL 3600 when the
creation succeeds — and skips resource creation entirely on a cache hit;
if the backend reports `ResourceAlreadyExists` it instead creates just the
missing metric (followed by the unconditional final metric-creation
attempt the code always makes); a `MetricAlreadyExists` outcome at any
point is ignored, and the call finishes without surfacing an error. -/
theorem C3_ensure_resource_and_metric_amended (env : Env) (rt mn : String)
    (resource : GResource) (ap : Option String)
    (hmet : dictGet resource.metrics mn = some ap) :
    (env.cacheConfigured = false → env.createRes 0 = CreateResR.ok →
      ensure_resource_and_metric env rt resource mn St.init
        = (Except.ok (),
           { St.init with
              nCreateRes := 1
              nCreateMet := 1
              calls := [GCall.createResource rt resource,
                GCall.createMetric rt
                  ((dictGet resource.attrs "id").getD "") mn ap] }))
    ∧ (env.cacheConfigured = false →
        env.createRes 0 = CreateResR.alreadyExists →
        (ensure_resource_and_metric env rt resource mn St.init).1
            = Except.ok ()
        ∧ (ensure_resource_and_metric env rt resource mn St.init).2.calls
            = [GCall.createResource rt resource,
               GCall.createMetric rt ((dictGet resource.attrs "id").getD "")
                 mn ap,
               GCall.createMetric rt ((dictGet resource.attrs "id").getD "")
                 mn ap])
    ∧ (env.cacheConfigured = true →
        env.cacheGet 0
            = some (frozensetHash (dictRemove resource.attrs "metrics")) →
        (ensure_resource_and_metric env rt resource mn St.init).1
            = Except.ok ()
        ∧ (ensure_resource_and_metric env rt resource mn St.init).2.calls
            = [GCall.createMetric rt
                ((dictGet resource.attrs "id").getD "") mn ap])
    ∧ (env.cacheConfigured = true →
        env.cacheGet 0
            ≠ some (frozensetHash (dictRemove resource.attrs "metrics")) →
        env.cacheGet 1
            = some (frozensetHash (dictRemove resource.attrs "metrics")) →
        (ensure_resource_and_metric env rt resource mn St.init).1
            = Except.ok ()
        ∧ (ensure_resource_and_metric env rt resource mn St.init).2.calls
            = [GCall.createMetric rt
                ((dictGet resource.attrs "id").getD "") mn ap])
    ∧ (env.cacheConfigured = true →
        env.cacheGet 0
            ≠ some (frozensetHash (dictRemove resource.attrs "metrics")) →
        env.cacheGet 1
            ≠ some (frozensetHash (dictRemove resource.attrs "metrics")) →
        env.createRes 0 = CreateResR.ok →
        (ensure_resource_and_metric env rt resource mn St.init).1
            = Except.ok ()
        ∧ (ensure_resource_and_metric env rt resource mn St.init).2.calls
            = [GCall.createResource rt resource,
               GCall.cacheSet
                 (cache_key_mangler ((dictGet resource.attrs "id").getD ""))
                 (frozensetHash (dictRemove resource.attrs "metrics")) 3600,
               GCall.createMetric rt
                 ((dictGet resource.attrs "id").getD "") mn ap])
    ∧ (env.cacheConfigured = true →
        env.cacheGet 0
            ≠ some (frozensetHash (dictRemove resource.attrs "metrics")) →
        env.cacheGet 1
            ≠ some (frozensetHash (dictRemove resource.attrs "metrics")) →
        env.createRes 0 = CreateResR.alreadyExists →
        (ensure_resource_and_metric env rt resource mn St.init).1
            = Except.ok ()
        ∧ (ensure_resource_and_metric env rt resource mn St.init).2.calls
            = [GCall.createResource rt resource,
               GCall.createMetric rt
                 ((dictGet resource.attrs "id").getD "") mn ap,
               GCall.createMetric rt
                 ((dictGet resource.attrs "id").getD "") mn ap]) := by
  refine ⟨?_, ?_, ?_, ?_, ?_, ?_⟩
  · intro hc hr
    simp [ensure_resource_and_metric, check_resource_cache, doCacheGet,
      doCreateResource, doCreateMetric, doCacheSet, addLog, St.init,
      hc, hr, hmet]
  · intro hc hr
    constructor <;>
      simp [ensure_resource_and_metric, check_resource_cache, doCacheGet,
        doCreateResource, doCreateMetric, doCacheSet, addLog, St.init,
        hc, hr, hmet]
  · intro hc hg
    constructor <;>
      simp [ensure_resource_and_metric, check_resource_cache, doCacheGet,
        doCreateResource, doCreateMetric, doCacheSet, addLog, St.init,
        hc, hg, hmet]
  · intro hc hg0 hg1
    constructor <;>
      simp [ensure_resource_and_metric, check_resource_cache, doCacheGet,
        doCreateResource, doCreateMetric, doCacheSet, addLog, St.init,
        hc, hg0, hg1, hmet]
  · intro hc hg0 hg1 hr
    constructor <;>
      simp [ensure_resource_and_metric, check_resource_cache, doCacheGet,
        doCreateResource, doCreateMetric, doCacheSet, addLog, St.init,
        hc, hg0, hg1, hr, hmet]
  · intro hc hg0 hg1 hr
    constructor <;>
      simp [ensure_resource_and_metric, check_resource_cache, doCacheGet,
        doCreateResource, doCreateMetric, doCacheSet, addLog, St.init,
        hc, hg0, hg1, hr, hmet]

/-- C3 witness: without a cache the repair creates the resource (metrics
map included) and then the metric. -/
theorem C3_ensure_resource_and_metric_amended_witness :
    ensure_resource_and_metric envC2 "instance" resC3 "m" St.init
      = (Except.ok (),
         { St.init with
            nCreateRes := 1
            nCreateMet := 1
            calls := [GCall.createResource "instance" resC3,
              GCall.createMetric "instance"
                ((dictGet resC3.attrs "id").getD "") "m" (some "low")] }) :=
  (C3_ensure_resource_and_metric_amended envC2 "instance" "m" resC3
    (some "low") rfl).1 rfl rfl

/-- A configuration with a cache that always misses and a backend whose
`update_resource` calls fail. -/
def envC1 : Env :=
  { post := fun _ => PostR.ok, createRes := fun _ => CreateResR.ok,
    createMet := fun _ => CreateMetR.ok,
    update := fun _ => UpdateR.otherError,
    cacheGet := fun _ => none, cacheConfigured := true,
    archive_policy := none, resources_definition := [],
    filter_service_activity := false, gnocchi_project_id := Except.ok "gp" }

/-- C1 counterexample: with non-empty extras, a cache configured and both
cache checks missing, `update_resource` is called exactly once but fails,
and then no new hash is stored — no `cache.set` with the fixed TTL ever
happens — refuting the claim that the dispatcher calls update-resource and
stores the new hash. -/
theorem C1_counterexample :
    countCalls isUpdateCall
        (reconcile_resource envC1 "instance" "r1" resC3 [("flavor", "x")]
          St.init).2.calls = 1
    ∧ countCalls isCacheSetCall
        (reconcile_resource envC1 "instance" "r1" resC3 [("flavor", "x")]
          St.init).2.calls = 0 := by
  refine ⟨by decide, by decide⟩

/-- C1 (amended): for a dispatched resource group with a cache configured,
reconciliation compares the cached hash with the content hash of the
resource's attribute set (metrics excluded): on a first-check hit no
update-resource call occurs; on a miss the cache is re-checked under the
lock and a re-check hit also skips the call; when both checks still differ,
`update_resource` is called exactly once and the fresh hash is stored with
TTL 3600 when the update succeeds, while a failing update raises (to be
logged at resource granularity) without storing; and `_process_resource`
runs exactly this reconciliation when its meter loop finishes with
non-empty accumulated extras. -/
theorem C1_reconcile_cache_amended (env : Env) (rt rid : String)
    (resource : GResource) (extra : List (String × String))
    (hc : env.cacheConfigured = true) :
    (env.cacheGet 0
        = some (frozensetHash (dictRemove resource.attrs "metrics")) →
      (reconcile_resource env rt rid resource extra St.init).1
          = Except.ok ()
      ∧ (reconcile_resource env rt rid resource extra St.init).2.calls = [])
    ∧ (env.cacheGet 0
          ≠ some (frozensetHash (dictRemove resource.attrs "metrics")) →
        env.cacheGet 1
          = some (frozensetHash (dictRemove resource.attrs "metrics")) →
        (reconcile_resource env rt rid resource extra St.init).1
            = Except.ok ()
        ∧ (reconcile_resource env rt rid resource extra St.init).2.calls
            = [])
    ∧ (env.cacheGet 0
          ≠ some (frozensetHash (dictRemove resource.attrs "metrics")) →
        env.cacheGet 1
          ≠ some (frozensetHash (dictRemove resource.attrs "metrics")) →
        env.update 0 = UpdateR.ok →
        reconcile_resource env rt rid resource extra St.init
          = (Except.ok (),
             { St.init with
                nUpdate := 1
                nCacheGet := 2
                calls := [GCall.updateResource rt rid extra,
                  GCall.cacheSet
                    (cache_key_mangler
                      ((dictGet resource.attrs "id").getD ""))
                    (frozensetHash (dictRemove resource.attrs "metrics"))
                    3600] }))
    ∧ (env.cacheGet 0
          ≠ some (frozensetHash (dictRemove resource.attrs "metrics")) →
        env.cacheGet 1
          ≠ some (frozensetHash (dictRemove resource.attrs "metrics")) →
        env.update 0 = UpdateR.otherError →
        (reconcile_resource env rt rid resource extra St.init).1
            = Except.error WErr.unexpected
        ∧ (reconcile_resource env rt rid resource extra St.init).2.calls
            = [GCall.updateResource rt rid extra])
    ∧ (∀ (groups : List (String × List DSample)) (st st2 : St) (u : Unit)
          (extra2 : List (String × String)) (rt2 : String)
          (res2 : GResource),
        process_groups env rid groups [] none st
            = (Except.ok u, extra2, some (rt2, res2), st2) →
        extra2 ≠ [] →
        process_resource_body env rid groups st
            = reconcile_resource env rt2 rid res2 extra2 st2) := by
  refine ⟨?_, ?_, ?_, ?_, ?_⟩
  · intro hg
    constructor <;>
      simp [reconcile_resource, check_resource_cache, doCacheGet,
        doUpdateResource, doCacheSet, addLog, St.init, hc, hg]
  · intro hg0 hg1
    constructor <;>
      simp [reconcile_resource, check_resource_cache, doCacheGet,
        doUpdateResource, doCacheSet, addLog, St.init, hc, hg0, hg1]
  · intro hg0 hg1 hu
    simp [reconcile_resource, check_resource_cache, doCacheGet,
      doUpdateResource, doCacheSet, addLog, St.init, hc, hg0, hg1, hu]
  · intro hg0 hg1 hu
    constructor <;>
      simp [reconcile_resource, check_resource_cache, doCacheGet,
        doUpdateResource, doCacheSet, addLog, St.init, hc, hg0, hg1, hu]
  · intro groups st st2 u extra2 rt2 res2 hgrp hne
    have hempty : extra2.isEmpty = false := by
      cases extra2 with
      | nil => exact absurd rfl hne
      | cons a l => rfl
    simp [process_resource_body, hgrp, hempty]

/-- C1 witness: a cache hit on the first check skips the update entirely. -/
theorem C1_reconcile_cache_amended_witness :
    (reconcile_resource envC3 "instance" "r1" resC3 [("flavor", "x")]
        St.init).2.calls = [] :=
  ((C1_reconcile_cache_amended envC3 "instance" "r1" resC3
    [("flavor", "x")] rfl).1 rfl).2

/-- The strict part of the sort order: strictly smaller key tuple. -/
def sampleLt (a b : DSample) : Prop :=
  strLt a.resource_id b.resource_id = true
    ∨ (a.resource_id = b.resource_id
        ∧ strLt a.counter_name b.counter_name = true)

/-- Strictly smaller key or equal sample: an antisymmetric relation used to
show that two stable sorts of key-distinct permutations coincide. -/
def sampleR (a b : DSample) : Prop := sampleLt a b ∨ a = b

theorem sampleLt_asymm {a b : DSample} (h1 : sampleLt a b)
    (h2 : sampleLt b a) : False := by
  rcases h1 with h1 | ⟨e1, c1⟩ <;> rcases h2 with h2 | ⟨e2, c2⟩
  · exact charListLt_asymm h1 h2
  · rw [e2] at h1
    rw [strLt_irrefl] at h1
    cases h1
  · rw [e1] at h2
    rw [strLt_irrefl] at h2
    cases h2
  · exact charListLt_asymm c1 c2

instance : IsAntisymm DSample sampleR := by
  constructor
  intro a b h1 h2
  rcases h1 with h1 | h1
  · rcases h2 with h2 | h2
    · exact absurd h2 (fun h => sampleLt_asymm h1 h)
    · exact h2.symm
  · exact h1

/-- Every two samples of the batch sharing the sort key are equal. -/
def uniqKeys (l : List DSample) : Prop :=
  ∀ a ∈ l, ∀ b ∈ l, a.resource_id = b.resource_id →
    a.counter_name = b.counter_name → a = b

theorem pairwise_sampleR_of_sorted {l : List DSample}
    (hs : l.Pairwise sampleLe) (hu : uniqKeys l) : l.Pairwise sampleR := by
  induction l with
  | nil => exact List.Pairwise.nil
  | cons a as ih =>
    rcases List.pairwise_cons.mp hs with ⟨ha, hs2⟩
    refine List.pairwise_cons.mpr ⟨?_, ih hs2 ?_⟩
    · intro b hb
      rcases ha b hb with h1 | ⟨he, hcle⟩
      · exact Or.inl (Or.inl h1)
      · rcases strLe_cases hcle with h2 | h2
        · exact Or.inl (Or.inr ⟨he, h2⟩)
        · exact Or.inr (hu a (List.mem_cons_self a as) b
            (List.mem_cons_of_mem a hb) he h2)
    · exact fun x hx y hy => hu x (List.mem_cons_of_mem a hx) y
        (List.mem_cons_of_mem a hy)

theorem insertionSort_eq_of_perm {l1 l2 : List DSample}
    (hp : l1.Perm l2) (hu : uniqKeys l1) :
    List.insertionSort sampleLe l1 = List.insertionSort sampleLe l2 := by
  have hu2 : uniqKeys l2 := fun a ha b hb =>
    hu a (hp.mem_iff.mpr ha) b (hp.mem_iff.mpr hb)
  have hperm : (List.insertionSort sampleLe l1).Perm
      (List.insertionSort sampleLe l2) :=
    (List.perm_insertionSort sampleLe l1).trans
      (hp.trans (List.perm_insertionSort sampleLe l2).symm)
  have hS1 : List.Sorted sampleR (List.insertionSort sampleLe l1) :=
    pairwise_sampleR_of_sorted (List.sorted_insertionSort sampleLe l1)
      (fun a ha b hb => hu a (by simpa using ha) b (by simpa using hb))
  have hS2 : List.Sorted sampleR (List.insertionSort sampleLe l2) :=
    pairwise_sampleR_of_sorted (List.sorted_insertionSort sampleLe l2)
      (fun a ha b hb => hu2 a (by simpa using ha) b (by simpa using hb))
  exact List.eq_of_perm_of_sorted hperm hS1 hS2

theorem is_gnocchi_activity_total (env : Env) :
    (∃ p : DSample → Bool,
      ∀ s, is_gnocchi_activity env s = Except.ok (p s))
    ∨ (∀ s, is_gnocchi_activity env s = Except.error ()) := by
  by_cases hf : env.filter_service_activity
  · cases hpid : env.gnocchi_project_id with
    | ok pid =>
      exact Or.inl ⟨fun s => s.project_id == pid
        || (s.resource_id == pid
            && is_swift_account_sample env.resources_definition s),
        fun s => by simp [is_gnocchi_activity, hf, hpid]⟩
    | error e =>
      refine Or.inr (fun s => ?_)
      cases e
      simp [is_gnocchi_activity, hf, hpid]
  · exact Or.inl ⟨fun _ => false,
      fun s => by simp [is_gnocchi_activity, hf]⟩

theorem filter_activity_error (env : Env)
    (he : ∀ s, is_gnocchi_activity env s = Except.error ())
    (s : DSample) (rest : List DSample) :
    filter_activity env (s :: rest) = Except.error () := by
  simp [filter_activity, he s]

/-- The dispatcher configuration of the determinism counterexample: one
definition handling the meter `m`, everything succeeding. -/
def envC4 : Env :=
  { post := fun _ => PostR.ok, createRes := fun _ => CreateResR.ok,
    createMet := fun _ => CreateMetR.ok, update := fun _ => UpdateR.ok,
    cacheGet := fun _ => none, cacheConfigured := false,
    archive_policy := none,
    resources_definition := [RDef.mk "instance" ["m"] none false []],
    filter_service_activity := false, gnocchi_project_id := Except.ok "gp" }

/-- C4 counterexample: two distinct samples sharing the sort key
`(resource_id, counter_name)` but differing in timestamp keep their input
order under the stable sort, so the two permuted batches post their
measurements in different orders: the backend call sequences differ. -/
theorem C4_counterexample :
    ([DSample.mk "r" "m" "u" "p" 1 0,
      DSample.mk "r" "m" "u" "p" 2 0]).Perm
      [DSample.mk "r" "m" "u" "p" 2 0, DSample.mk "r" "m" "u" "p" 1 0]
    ∧ record_metering_data envC4
        [DSample.mk "r" "m" "u" "p" 1 0, DSample.mk "r" "m" "u" "p" 2 0]
      ≠ record_metering_data envC4
        [DSample.mk "r" "m" "u" "p" 2 0, DSample.mk "r" "m" "u" "p" 1 0] := by
  refine ⟨by decide, by decide⟩

/-- C4 (amended): for input batches that are permutations of one another in
which any two samples sharing the `(resource_id, meter_name)` key are
equal, dispatching is deterministic: the filtered, stable-sorted, grouped
pipeline and the entire dispatch run (its backend call sequence included)
produce identical results for both orders.  (Permutations that reorder
distinct samples sharing a key may instead permute the measurements within
that key's group, as the counterexample shows.) -/
theorem C4_dispatch_deterministic (env : Env) (l1 l2 : List DSample)
    (hp : l1.Perm l2) (hu : uniqKeys l1) :
    record_metering_data env l1 = record_metering_data env l2
    ∧ (filter_activity env l1).map
        (fun d => grouped_samples (List.insertionSort sampleLe d))
      = (filter_activity env l2).map
        (fun d => grouped_samples (List.insertionSort sampleLe d)) := by
  rcases is_gnocchi_activity_total env with ⟨p, hpred⟩ | herr
  · have e1 := filter_activity_ok env p hpred l1
    have e2 := filter_activity_ok env p hpred l2
    have hfp : (l1.filter (fun s => !(p s))).Perm
        (l2.filter (fun s => !(p s))) := hp.filter _
    have hus : uniqKeys (l1.filter fun s => !(p s)) :=
      fun a ha b hb => hu a (List.mem_of_mem_filter ha) b
        (List.mem_of_mem_filter hb)
    have hsort := insertionSort_eq_of_perm hfp hus
    constructor
    · simp [record_metering_data, e1, e2, hsort]
    · simp [e1, e2, hsort, Except.map]
  · cases l1 with
    | nil =>
      have h2 : l2 = [] := hp.symm.eq_nil
      subst h2
      exact ⟨rfl, rfl⟩
    | cons a as =>
      cases l2 with
      | nil => exact absurd hp.eq_nil (List.cons_ne_nil a as)
      | cons b bs =>
        have h1 := filter_activity_error env herr a as
        have h2 := filter_activity_error env herr b bs
        constructor
        · simp [record_metering_data, h1, h2]
        · simp [h1, h2]

/-- C4 witness: permuted batches with pairwise-distinct keys dispatch
identically. -/
theorem C4_dispatch_deterministic_witness :
    record_metering_data envC4
        [DSample.mk "a" "m" "u" "p" 1 0, DSample.mk "b" "m" "u" "p" 2 0]
      = record_metering_data envC4
        [DSample.mk "b" "m" "u" "p" 2 0, DSample.mk "a" "m" "u" "p" 1 0] :=
  (C4_dispatch_deterministic envC4
    [DSample.mk "a" "m" "u" "p" 1 0, DSample.mk "b" "m" "u" "p" 2 0]
    [DSample.mk "b" "m" "u" "p" 2 0, DSample.mk "a" "m" "u" "p" 1 0]
    (by decide) (by unfold uniqKeys; decide)).1

end Ceilometer
